import Mathlib

/-!
Shallow embedding of `sync-wait-group` (src/lib.rs).

The crate exposes one type, `WaitGroup`, holding an `Arc<Inner>` where
`Inner { cvar: Condvar, count: Mutex<usize> }`.  Operations:

* `WaitGroup::new`            — fresh `Inner` with `count = 1`;
* `Clone for WaitGroup`       — under the lock, `*count += 1`, new handle
  shares the same `inner` allocation;
* `Drop for WaitGroup`        — under the lock, `*count -= 1`, and if the
  count reached 0, `cvar.notify_all()`;
* `WaitGroup::wait(self)`     — fast-path check `*count == 1` under the lock
  (return at once, the implicit drop of `self` doing the final decrement);
  otherwise clone the `Arc`, drop `self` (decrement under the lock), then
  loop `while *count > 0 { cvar.wait(&mut count) }`.

All handles derived from one `new` share a single `Inner`, so the model is a
state machine over that one shared counter together with the threads that
interact with it.  Every transition of the machine is exactly one
lock-delimited critical section of the source (a `parking_lot::Mutex` makes
each such section atomic with respect to every other).  The count is
modelled as an `Int` so that absence of underflow is a provable property of
the system rather than an artifact of an unsigned type; the `usize` bound of
the real counter is treated separately by the overflow model further down.
-/

namespace SyncWaitGroup

/-- Global state of one shared `Inner` and the threads using it.

`count` is the contents of `count: Mutex<usize>`.  `free` is the number of
live `WaitGroup` handles that have not been moved into a `wait` call.  The
next five fields count threads at the successive program points of
`WaitGroup::wait` and of blocking on the condvar: `entering` threads own a
handle and are about to run the fast-path check; `retFast` threads saw
`count == 1` and are about to return (dropping `self`); `dropping` threads
saw `count != 1`, cloned the `Arc`, and are about to `drop(self)`;
`looping` threads are in the `while` loop, runnable, about to lock and test
the count; `blocked` threads are blocked inside `cvar.wait`.  `done` counts
completed `wait` calls. -/
structure State where
  count : Int
  free : Nat
  entering : Nat
  retFast : Nat
  dropping : Nat
  looping : Nat
  blocked : Nat
  done : Nat
deriving DecidableEq, Repr

/-- Translation of `WaitGroup::new`: a freshly allocated `Inner` with
`count: Mutex::new(1)`, one live handle, no threads anywhere in `wait`. -/
def new : State :=
  { count := 1, free := 1, entering := 0, retFast := 0, dropping := 0,
    looping := 0, blocked := 0, done := 0 }

/-- Translation of the body of `Drop for WaitGroup`: under the lock,
`*count -= 1; if *count == 0 { self.inner.cvar.notify_all(); }`.
`notify_all` makes every thread blocked on the condvar runnable again; a
woken thread re-acquires the lock and re-tests the loop guard, so it moves
to `looping`. -/
def decAndWake (s : State) : State :=
  if s.count - 1 = 0 then
    { s with count := s.count - 1, looping := s.looping + s.blocked, blocked := 0 }
  else
    { s with count := s.count - 1 }

/-- Translation of `Clone for WaitGroup`: under the lock, `*count += 1`;
the clone holds `self.inner.clone()`, one more live handle. -/
def cloneHandle (s : State) : State :=
  { s with count := s.count + 1, free := s.free + 1 }

/-- Dropping a live handle outside `wait` (scope exit or explicit `drop`):
runs `Drop for WaitGroup` and removes the handle. -/
def dropHandle (s : State) : State :=
  { decAndWake s with free := s.free - 1 }

/-- A thread moves a live handle into a call of `wait(self)` (the handle is
consumed by the signature, so it stops being usable outside the call). -/
def startWait (s : State) : State :=
  { s with free := s.free - 1, entering := s.entering + 1 }

/-- Fast-path check of `wait` succeeding: under the lock the thread read
`*count == 1`; it will return, which drops `self`. -/
def checkFast (s : State) : State :=
  { s with entering := s.entering - 1, retFast := s.retFast + 1 }

/-- Fast-path check of `wait` failing: under the lock the thread read
`*count != 1`; it clones the `Arc` (`self.inner.clone()`, which touches no
shared count) and will next `drop(self)`. -/
def checkSlow (s : State) : State :=
  { s with entering := s.entering - 1, dropping := s.dropping + 1 }

/-- Return of the fast path: dropping `self` on return runs
`Drop for WaitGroup`, then `wait` has returned. -/
def retDrop (s : State) : State :=
  { decAndWake s with retFast := s.retFast - 1, done := s.done + 1 }

/-- Slow path, `drop(self)`: runs `Drop for WaitGroup`; the thread then
proceeds to `inner.count.lock()` and the `while` loop. -/
def slowDrop (s : State) : State :=
  { decAndWake s with
    dropping := s.dropping - 1
    looping := (decAndWake s).looping + 1 }

/-- Loop iteration of `wait` with `*count > 0`: `cvar.wait(&mut count)`
atomically releases the lock and blocks the thread. -/
def loopBlock (s : State) : State :=
  { s with looping := s.looping - 1, blocked := s.blocked + 1 }

/-- Loop exit of `wait`: under the lock the guard `*count > 0` failed, so
the thread leaves the loop and `wait` returns. -/
def loopExit (s : State) : State :=
  { s with looping := s.looping - 1, done := s.done + 1 }

/-- A spurious wakeup of the condvar: a blocked thread becomes runnable
without any `notify_all`; it re-acquires the lock and re-tests the guard. -/
def spuriousWake (s : State) : State :=
  { s with blocked := s.blocked - 1, looping := s.looping + 1 }

/-- One atomic step of the system: each constructor is one lock-delimited
critical section of src/lib.rs (plus `startWait`, the pure move of a handle
into `wait`, and `spurious`, the condvar waking without a notification).
Guards requiring a positive thread or handle tally select which thread or
handle moves; guards on `count` are the tests the source performs under the
lock. -/
inductive Step : State → State → Prop
  | cloneS (s : State) (h : 1 ≤ s.free) : Step s (cloneHandle s)
  | dropS (s : State) (h : 1 ≤ s.free) : Step s (dropHandle s)
  | startWaitS (s : State) (h : 1 ≤ s.free) : Step s (startWait s)
  | checkFastS (s : State) (h : 1 ≤ s.entering) (hc : s.count = 1) :
      Step s (checkFast s)
  | checkSlowS (s : State) (h : 1 ≤ s.entering) (hc : s.count ≠ 1) :
      Step s (checkSlow s)
  | retDropS (s : State) (h : 1 ≤ s.retFast) : Step s (retDrop s)
  | slowDropS (s : State) (h : 1 ≤ s.dropping) : Step s (slowDrop s)
  | loopBlockS (s : State) (h : 1 ≤ s.looping) (hc : 0 < s.count) :
      Step s (loopBlock s)
  | loopExitS (s : State) (h : 1 ≤ s.looping) (hc : s.count = 0) :
      Step s (loopExit s)
  | spuriousS (s : State) (h : 1 ≤ s.blocked) : Step s (spuriousWake s)

/-- States reachable from a fresh `WaitGroup::new` by any interleaving of
clone, drop and wait activity. -/
def Reachable (s : State) : Prop :=
  Relation.ReflTransGen Step new s

@[simp] lemma decAndWake_count (s : State) : (decAndWake s).count = s.count - 1 := by
  unfold decAndWake; split <;> rfl

@[simp] lemma decAndWake_free (s : State) : (decAndWake s).free = s.free := by
  unfold decAndWake; split <;> rfl

@[simp] lemma decAndWake_entering (s : State) :
    (decAndWake s).entering = s.entering := by
  unfold decAndWake; split <;> rfl

@[simp] lemma decAndWake_retFast (s : State) :
    (decAndWake s).retFast = s.retFast := by
  unfold decAndWake; split <;> rfl

@[simp] lemma decAndWake_dropping (s : State) :
    (decAndWake s).dropping = s.dropping := by
  unfold decAndWake; split <;> rfl

@[simp] lemma decAndWake_done (s : State) : (decAndWake s).done = s.done := by
  unfold decAndWake; split <;> rfl

/-- Inductive invariant of the system: the shared count equals the number of
references that still owe it a decrement (live handles plus threads that
have entered `wait` but not yet dropped `self`), and a thread can be past a
successful fast-path check only when it holds the sole such reference. -/
def Inv (s : State) : Prop :=
  s.count = ((s.free + s.entering + s.retFast + s.dropping : Nat) : Int) ∧
  (1 ≤ s.retFast →
    s.free = 0 ∧ s.entering = 0 ∧ s.dropping = 0 ∧ s.retFast = 1)

lemma inv_new : Inv new := by
  constructor
  · rfl
  · intro h
    simp [new] at h

lemma inv_step {s s' : State} (hinv : Inv s) (hstep : Step s s') : Inv s' := by
  obtain ⟨h1, h2⟩ := hinv
  rcases Nat.lt_or_ge s.retFast 1 with hrf | hrf
  · -- no thread is past a successful fast-path check
    have hrf0 : s.retFast = 0 := by omega
    cases hstep with
    | cloneS h => refine ⟨?_, ?_⟩ <;> simp [cloneHandle] <;> omega
    | dropS h => refine ⟨?_, ?_⟩ <;> simp [dropHandle] <;> omega
    | startWaitS h => refine ⟨?_, ?_⟩ <;> simp [startWait] <;> omega
    | checkFastS h hc => refine ⟨?_, ?_⟩ <;> simp [checkFast] <;> omega
    | checkSlowS h hc => refine ⟨?_, ?_⟩ <;> simp [checkSlow] <;> omega
    | retDropS h => exact absurd h (by omega)
    | slowDropS h => refine ⟨?_, ?_⟩ <;> simp [slowDrop] <;> omega
    | loopBlockS h hc => refine ⟨?_, ?_⟩ <;> simp [loopBlock] <;> omega
    | loopExitS h hc => refine ⟨?_, ?_⟩ <;> simp [loopExit] <;> omega
    | spuriousS h => refine ⟨?_, ?_⟩ <;> simp [spuriousWake] <;> omega
  · -- one thread holds the sole reference and is about to return
    obtain ⟨e1, e2, e3, e4⟩ := h2 hrf
    cases hstep with
    | cloneS h => exact absurd h (by omega)
    | dropS h => exact absurd h (by omega)
    | startWaitS h => exact absurd h (by omega)
    | checkFastS h hc => exact absurd h (by omega)
    | checkSlowS h hc => exact absurd h (by omega)
    | retDropS h => refine ⟨?_, ?_⟩ <;> simp [retDrop] <;> omega
    | slowDropS h => exact absurd h (by omega)
    | loopBlockS h hc => refine ⟨?_, ?_⟩ <;> simp [loopBlock] <;> omega
    | loopExitS h hc =>
        exfalso
        rw [h1] at hc
        omega
    | spuriousS h => refine ⟨?_, ?_⟩ <;> simp [spuriousWake] <;> omega

lemma reachable_inv {s : State} (h : Reachable s) : Inv s := by
  induction h with
  | refl => exact inv_new
  | tail _ hstep ih => exact inv_step ih hstep

/-- Handle value at the pointer level: a `WaitGroup` is an `Arc<Inner>`,
modelled by the address of the `Inner` allocation it references. -/
structure WaitGroup where
  inner : Nat
deriving DecidableEq

/-- Pointer part of `Clone for WaitGroup`: the new handle is built from
`self.inner.clone()`, a reference to the same allocation. -/
def WaitGroup.cloneRef (w : WaitGroup) : WaitGroup :=
  { inner := w.inner }

/-- C1: a call of `wait` never returns while the shared count is still
positive.  In any reachable state, every step that completes a `wait` call
(`done` grows) leaves the count at 0: the loop exit of the slow path is
guarded by the under-lock test `*count > 0` failing, and the fast-path
return happens only when the calling thread held the sole remaining
reference, so its own drop took the count from 1 to 0.  Spurious wakeups
and wakeups from decrements that did not reach 0 only move a thread back to
re-testing the guard; they cannot complete a `wait`. -/
theorem wait_returns_only_when_count_zero (s s' : State)
    (hr : Reachable s) (hstep : Step s s') (hdone : s.done < s'.done) :
    s'.count = 0 := by
  obtain ⟨h1, h2⟩ := reachable_inv hr
  cases hstep with
  | cloneS h => simp [cloneHandle] at hdone
  | dropS h => simp [dropHandle] at hdone
  | startWaitS h => simp [startWait] at hdone
  | checkFastS h hc => simp [checkFast] at hdone
  | checkSlowS h hc => simp [checkSlow] at hdone
  | retDropS h =>
      obtain ⟨e1, e2, e3, e4⟩ := h2 h
      simp [retDrop]
      omega
  | slowDropS h => simp [slowDrop] at hdone
  | loopBlockS h hc => simp [loopBlock] at hdone
  | loopExitS h hc => simpa [loopExit] using hc
  | spuriousS h => simp [spuriousWake] at hdone

theorem wait_returns_only_when_count_zero_witness :
    (retDrop (checkFast (startWait new))).count = 0 :=
  wait_returns_only_when_count_zero (checkFast (startWait new))
    (retDrop (checkFast (startWait new)))
    (Relation.ReflTransGen.tail
      (Relation.ReflTransGen.tail Relation.ReflTransGen.refl
        (Step.startWaitS new (by decide)))
      (Step.checkFastS (startWait new) (by decide) (by decide)))
    (Step.retDropS (checkFast (startWait new)) (by decide))
    (by decide)

/-- C2: releasing a handle is a legal step that decrements the count by
exactly 1 inside one critical section, and it broadcasts to every blocked
waiter (all of them become runnable, none stays blocked) exactly when the
decrement reaches 0; a release that leaves the count positive wakes no
one.  The step has no precondition about waiters, so it also applies when
no `wait` was ever called (witnessed below at the fresh state). -/
theorem drop_decrements_and_broadcasts_iff_zero (s : State) (h : 1 ≤ s.free) :
    Step s (dropHandle s) ∧
    (dropHandle s).count = s.count - 1 ∧
    (dropHandle s).free = s.free - 1 ∧
    ((dropHandle s).count = 0 →
      (dropHandle s).looping = s.looping + s.blocked ∧
      (dropHandle s).blocked = 0) ∧
    ((dropHandle s).count ≠ 0 →
      (dropHandle s).looping = s.looping ∧
      (dropHandle s).blocked = s.blocked) := by
  refine ⟨Step.dropS s h, decAndWake_count s, rfl, ?_, ?_⟩
  · intro hc
    simp [dropHandle] at hc
    constructor <;> simp [dropHandle, decAndWake, hc]
  · intro hc
    simp [dropHandle] at hc
    constructor <;> simp [dropHandle, decAndWake, hc]

theorem drop_decrements_and_broadcasts_iff_zero_witness :
    Step new (dropHandle new) ∧
    (dropHandle new).count = new.count - 1 ∧
    (dropHandle new).free = new.free - 1 ∧
    ((dropHandle new).count = 0 →
      (dropHandle new).looping = new.looping + new.blocked ∧
      (dropHandle new).blocked = 0) ∧
    ((dropHandle new).count ≠ 0 →
      (dropHandle new).looping = new.looping ∧
      (dropHandle new).blocked = new.blocked) :=
  drop_decrements_and_broadcasts_iff_zero new (by decide)

/-- C3: in every reachable state the shared count is nonnegative (no drop
can underflow it, because the count always equals the number of references
still owing a decrement), and once the count is 0 no step can change it:
in particular it never increases again, since cloning requires a live
handle and a live handle keeps the count positive. -/
theorem count_nonneg_and_stays_zero (s s' : State)
    (hr : Reachable s) (hstep : Step s s') :
    0 ≤ s.count ∧ (s.count = 0 → s'.count = 0) := by
  obtain ⟨h1, h2⟩ := reachable_inv hr
  refine ⟨by omega, ?_⟩
  intro h0
  cases hstep with
  | cloneS h => exfalso; omega
  | dropS h => exfalso; omega
  | startWaitS h => simpa [startWait] using h0
  | checkFastS h hc => exfalso; omega
  | checkSlowS h hc => simpa [checkSlow] using h0
  | retDropS h => exfalso; obtain ⟨e1, e2, e3, e4⟩ := h2 h; omega
  | slowDropS h => exfalso; omega
  | loopBlockS h hc => exfalso; omega
  | loopExitS h hc => simpa [loopExit] using h0
  | spuriousS h => simpa [spuriousWake] using h0

theorem count_nonneg_and_stays_zero_witness :
    0 ≤ new.count ∧ (new.count = 0 → (dropHandle new).count = 0) :=
  count_nonneg_and_stays_zero new (dropHandle new)
    Relation.ReflTransGen.refl (Step.dropS new (by decide))

/-- C4: cloning a live handle is a legal step that increments the count by
exactly 1 and adds one live handle (the original stays live, so it remains
usable), touches none of the waiting threads, and at the pointer level the
clone references the same `Inner` allocation as the original. -/
theorem clone_increments_and_shares_inner (s : State) (w : WaitGroup)
    (h : 1 ≤ s.free) :
    Step s (cloneHandle s) ∧
    (cloneHandle s).count = s.count + 1 ∧
    (cloneHandle s).free = s.free + 1 ∧
    (WaitGroup.cloneRef w).inner = w.inner ∧
    (cloneHandle s).entering = s.entering ∧
    (cloneHandle s).looping = s.looping ∧
    (cloneHandle s).blocked = s.blocked ∧
    (cloneHandle s).done = s.done :=
  ⟨Step.cloneS s h, rfl, rfl, rfl, rfl, rfl, rfl, rfl⟩

theorem clone_increments_and_shares_inner_witness :
    Step new (cloneHandle new) ∧
    (cloneHandle new).count = new.count + 1 ∧
    (cloneHandle new).free = new.free + 1 ∧
    (WaitGroup.cloneRef ⟨0⟩).inner = (⟨0⟩ : WaitGroup).inner ∧
    (cloneHandle new).entering = new.entering ∧
    (cloneHandle new).looping = new.looping ∧
    (cloneHandle new).blocked = new.blocked ∧
    (cloneHandle new).done = new.done :=
  clone_increments_and_shares_inner new ⟨0⟩ (by decide)

/-- C5: `WaitGroup::new` yields a freshly allocated shared counter whose
count is exactly 1, with that single live handle and no thread anywhere in
`wait`; the constructor is a total definition with no error case. -/
theorem new_count_one :
    new.count = 1 ∧ new.free = 1 ∧ new.entering = 0 ∧ new.retFast = 0 ∧
    new.dropping = 0 ∧ new.looping = 0 ∧ new.blocked = 0 ∧ new.done = 0 :=
  ⟨rfl, rfl, rfl, rfl, rfl, rfl, rfl, rfl⟩

/-- C6: fast path of `wait`.  When a thread entering `wait` reads count 1
under the lock, its two own steps — the successful check, then the return
that drops `self` — are both enabled at once and complete the call: `done`
grows by one and the count is 0.  Neither step is `loopBlockS`, so the
thread returns without ever blocking on the condition variable and without
depending on any other thread. -/
theorem wait_fast_path_returns_immediately (s : State)
    (h : 1 ≤ s.entering) (hc : s.count = 1) :
    Step s (checkFast s) ∧
    Step (checkFast s) (retDrop (checkFast s)) ∧
    (retDrop (checkFast s)).done = s.done + 1 ∧
    (retDrop (checkFast s)).count = 0 := by
  refine ⟨Step.checkFastS s h hc,
    Step.retDropS (checkFast s) (Nat.le_add_left 1 s.retFast), ?_, ?_⟩
  · simp [checkFast, retDrop]
  · simp [checkFast, retDrop, hc]

theorem wait_fast_path_returns_immediately_witness :
    Step (startWait new) (checkFast (startWait new)) ∧
    Step (checkFast (startWait new)) (retDrop (checkFast (startWait new))) ∧
    (retDrop (checkFast (startWait new))).done = (startWait new).done + 1 ∧
    (retDrop (checkFast (startWait new))).count = 0 :=
  wait_fast_path_returns_immediately (startWait new) (by decide) (by decide)

/-- C7: starting from a fresh `WaitGroup::new` and performing any number
`n` of clones before any release leaves the shared count at `n + 1`, with
all `n + 1` handles live. -/
theorem clones_give_count_succ (n : Nat) :
    (cloneHandle^[n] new).count = (n : Int) + 1 ∧
    (cloneHandle^[n] new).free = n + 1 := by
  induction n with
  | zero => exact ⟨by decide, by decide⟩
  | succ n ih =>
      obtain ⟨ih1, ih2⟩ := ih
      rw [Function.iterate_succ_apply']
      refine ⟨?_, ?_⟩ <;> simp only [cloneHandle] <;> omega

/-- Number of bits of `usize` on the 64-bit targets the crate is built
for. -/
def usizeBits : Nat := 64

/-- Largest value of `usize`. -/
def usizeMax : Nat := 2 ^ usizeBits - 1

/-- Outcome of one Rust integer operation on the `usize` counter: a value,
or the loud abort that Rust mandates for arithmetic overflow (the language
defines overflow of `*count += 1` as a program error; with overflow checks
it aborts the thread, it is never a recoverable `Result`). -/
inductive UsizeResult
  | ok (v : Nat)
  | overflowPanic
deriving DecidableEq

/-- Translation of `*count += 1` from `Clone for WaitGroup` at the `usize`
level: the increment succeeds exactly when it stays representable. -/
def cloneCount (c : Nat) : UsizeResult :=
  if c + 1 ≤ usizeMax then .ok (c + 1) else .overflowPanic

/-- C8: no operation has a recoverable error.  `new` and the `wait` check
are total; the sole failure anywhere is overflow of the count in `clone`,
and it is a fatal abort — below the representable bound `clone` succeeds
and returns exactly `c + 1` (any successful result is the exact increment,
never a silently corrupted value), and at the bound it aborts.  The drop
decrement cannot underflow either: in any reachable state a live handle
keeps the count at least 1. -/
theorem only_error_is_clone_overflow (c : Nat) (s : State)
    (hr : Reachable s) (hfree : 1 ≤ s.free) :
    (c < usizeMax → cloneCount c = .ok (c + 1)) ∧
    (usizeMax ≤ c → cloneCount c = .overflowPanic) ∧
    (∀ v, cloneCount c = .ok v → v = c + 1) ∧
    1 ≤ s.count := by
  have h1 := (reachable_inv hr).1
  refine ⟨?_, ?_, ?_, by omega⟩
  · intro h
    unfold cloneCount
    exact if_pos h
  · intro h
    unfold cloneCount
    exact if_neg (by omega)
  · intro v hv
    unfold cloneCount at hv
    split at hv <;> simp_all

theorem only_error_is_clone_overflow_witness :
    (0 < usizeMax → cloneCount 0 = .ok (0 + 1)) ∧
    (usizeMax ≤ 0 → cloneCount 0 = .overflowPanic) ∧
    (∀ v, cloneCount 0 = .ok v → v = 0 + 1) ∧
    1 ≤ new.count :=
  only_error_is_clone_overflow 0 new Relation.ReflTransGen.refl (by decide)

/-- Translation of `Default for WaitGroup`: the body is
`WaitGroup::new()`. -/
def defaultWG : State := new

/-- Modelled from the words of the spec for comparison: a
default-constructed handle has a freshly allocated SharedCounter whose
count is 1, that one live handle, and no thread anywhere in `wait`. -/
def defaultSpec : State :=
  { count := 1, free := 1, entering := 0, retFast := 0, dropping := 0,
    looping := 0, blocked := 0, done := 0 }

/-- C9: the `Default` implementation is the same construction as
`WaitGroup::new`, and it matches the state the spec describes: a fresh
counter at 1 held by a single handle. -/
theorem default_refines_new :
    defaultWG = new ∧ defaultWG = defaultSpec ∧ defaultWG.count = 1 :=
  ⟨rfl, rfl, rfl⟩

/-- C10: in any reachable state with a live handle, cloning and then
dropping the clone restores the state exactly — the count returns to its
previous value and, because the intermediate decrement cannot reach 0 (the
original handle keeps the count positive), no waiter is woken and nothing
else changes. -/
theorem clone_then_drop_roundtrip (s : State)
    (hr : Reachable s) (h : 1 ≤ s.free) :
    dropHandle (cloneHandle s) = s := by
  obtain ⟨h1, h2⟩ := reachable_inv hr
  obtain ⟨c, f, e, r, d, l, b, dn⟩ := s
  simp at h1 h
  have hc : ¬(c = 0) := by omega
  simp [dropHandle, decAndWake, cloneHandle, hc]

theorem clone_then_drop_roundtrip_witness :
    dropHandle (cloneHandle new) = new :=
  clone_then_drop_roundtrip new Relation.ReflTransGen.refl (by decide)

end SyncWaitGroup
